import Mathlib

/-!
Verification of the ERP system's barcode / label-template core.

Shallow embedding of the TypeScript source:
* `src/server/barcodeUtils.ts` — unique barcode code generation
  (`generateUniqueBarcode`), barcode records, fan-out
  (`generateBarcodesForStockMovement`), `markBarcodeAsUsed`;
* the `/api/stock/entry` route — quantity preparation and fan-out pipeline;
* `src/server/storage.ts` — `getNextCustomerCode` / `generateCustomerCode`
  and `setDefaultLabelTemplate`;
* the label editor script — `validateTemplate`, `resizeElement` and the
  drag-position clamp in `moveElement`.

JavaScript numbers are modelled as `ℚ` (all quantities involved are exact
decimals), strings as `String`, and the `Math.random()` / `Date.now()`
sources as explicit oracle streams `ℕ → ℕ` so every definition stays
executable and deterministic.
-/

namespace Erp

/-! ## Decimal-string helpers

`(randomNum + timeComponent).toString().slice(-6).padStart(6, '0')` in
`generateUniqueBarcode` acts on a number in `[100000, 1000998]`: its decimal
representation has 6 or 7 digits, so taking the last six characters and
zero-padding is exactly the six low decimal digits of the number, i.e. the
six digits of `n % 1000000`. -/

/-- Decimal digit character: `digitChar d` is the character for `d % 10`. -/
def digitChar (d : ℕ) : Char := Char.ofNat (48 + d % 10)

/-- The 6 low decimal digits of `n`, as a 6-character string.  This is what
`n.toString().slice(-6).padStart(6, '0')` computes for `n < 10^7`. -/
def pad6 (n : ℕ) : String :=
  String.mk [digitChar (n / 100000), digitChar (n / 10000), digitChar (n / 1000),
             digitChar (n / 100), digitChar (n / 10), digitChar n]

/-! ## `generateUniqueBarcode` (src/server/barcodeUtils.ts, lines 33–72)

The candidate in each attempt is
`Math.floor(100000 + Math.random() * 900000) + Date.now() % 1000`, reduced to
its 6 low digits.  The random draw is modelled by an oracle `f : ℕ → ℕ`
(attempt index ↦ draw), reduced `% 900000` to the same range as
`Math.floor(Math.random() * 900000)`; the clock by an oracle `g`, reduced
`% 1000` like `Date.now() % 1000`. -/

/-- Candidate code for attempt `i` given random oracle `f` and clock oracle
`g`: the 6 low digits of `(100000 + f i % 900000) + (g i % 1000)`. -/
def barcodeCandidate (f g : ℕ → ℕ) (i : ℕ) : String :=
  pad6 (((100000 + f i % 900000) + g i % 1000) % 1000000)

/-- The inner `do … while (existingCodes.has(code))` loop of
`generateUniqueBarcode`: up to `fuel` attempts starting at attempt index
`i`; returns the first candidate not in `existing`, or `none` when the
attempt budget is exhausted. -/
def attemptLoop (existing : List String) (cand : ℕ → String) (i : ℕ) : ℕ → Option String
  | 0 => none
  | fuel + 1 =>
    if cand i ∈ existing then attemptLoop existing cand (i + 1) fuel
    else some (cand i)

/-- `generateUniqueBarcode`: three retry rounds (maxRetries = 3) of 1000
attempts each (maxAttempts = 1000).  A failed round has consumed 1001
candidates (the 1001st is generated and then the attempt counter check
throws), so round 2 starts at attempt 1001 and round 3 at 2002.  Each round
re-reads the barcode store; within a single call nothing else writes it, so
`existing` is the same list in all three rounds. -/
def generateUniqueBarcode (existing : List String) (f g : ℕ → ℕ) : Option String :=
  match attemptLoop existing (barcodeCandidate f g) 0 1000 with
  | some c => some c
  | none =>
    match attemptLoop existing (barcodeCandidate f g) 1001 1000 with
    | some c => some c
    | none => attemptLoop existing (barcodeCandidate f g) 2002 1000

/-- A sequence of `n` calls to `generateUniqueBarcode`, each returned code
being added to the existing-codes set before the next call (exactly what the
stock-entry fan-out does via the persisted barcode store).  `F`/`G` give each
call its own random/clock oracle. -/
def mintMany (F G : ℕ → ℕ → ℕ) : ℕ → List String → Option (List String)
  | 0, _ => some []
  | n + 1, existing =>
    match generateUniqueBarcode existing (F 0) (G 0) with
    | none => none
    | some c =>
      match mintMany (fun k => F (k + 1)) (fun k => G (k + 1)) n (c :: existing) with
      | none => none
      | some cs => some (c :: cs)

/-! ## Barcode records and `markBarcodeAsUsed`
(src/server/barcodeUtils.ts, lines 94–180) -/

/-- Unit of a stock entry: `adet` (piece) or `metre` (length). -/
inductive StockUnit
  | adet
  | metre
  deriving DecidableEq, Repr

/-- One persisted barcode record (`BarcodeJson`).  `id` and `createdAt` are
opaque strings supplied by the environment (`Date.now()`-derived in the
source). -/
structure BarcodeRec where
  id : String
  code : String
  productId : String
  stockMovementId : String
  warehouseId : String
  shelfId : Option String
  quantity : ℚ
  unit : StockUnit
  isUsed : Bool
  createdAt : String
  deriving DecidableEq, Repr

/-- `barcodes[barcodeIndex].isUsed = true` on one record. -/
def setUsed (b : BarcodeRec) : BarcodeRec := { b with isUsed := true }

/-- `markBarcodeAsUsed(code)`: find the first record with that code, set its
`isUsed` flag and save; return `false` (store untouched) when no record
matches.  The store write (`saveBarcodes`) is modelled as always
succeeding. -/
def markBarcodeAsUsed (code : String) : List BarcodeRec → Bool × List BarcodeRec
  | [] => (false, [])
  | b :: bs =>
    if b.code = code then (true, setUsed b :: bs)
    else
      let r := markBarcodeAsUsed code bs
      (r.1, b :: r.2)

/-! ## Stock-entry fan-out
(`generateBarcodesForStockMovement`, barcodeUtils.ts lines 125–155, and the
`/api/stock/entry` route, lines 403–511). -/

/-- A stock movement record as created by the entry route
(`type: "Giriş"`, barcode list filled in after minting). -/
structure Movement where
  id : String
  productId : String
  warehouseId : String
  shelfId : Option String
  type : String
  quantity : ℚ
  unit : StockUnit
  barcodes : List String
  deriving DecidableEq, Repr

/-- The persistent store as far as the entry route touches it: the stock
movement collection and the barcode collection. -/
structure Store where
  movements : List Movement
  barcodes : List BarcodeRec
  deriving DecidableEq, Repr

/-- Typed failures of the entry route (HTTP error codes in the source). -/
inductive EntryError
  | invalidQuantity
  | rangeError
  | metersRequired
  | invalidMeterLengths
  | barcodeGeneration
  | barcodeUpdateFailed
  deriving DecidableEq, Repr

/-- The metre-branch filter
`meterLengths.map(parseFloat).filter(num => !isNaN(num) && num > 0)`:
an entry whose `parseFloat` is `NaN` is modelled as `none` and dropped, a
numeric entry is kept iff it is positive. -/
def survivingLengths (meters : List (Option ℚ)) : List ℚ :=
  meters.filterMap fun o =>
    match o with
    | none => none
    | some v => if 0 < v then some v else none

/-- Lines 403–457 of the entry route: turn the request's quantity/meters into
the per-unit quantity list and the movement total.
* `adet`: `quantity || 0` must be positive (`INVALID_QUANTITY`), then
  `Array(qty).fill(1)` — which throws a `RangeError` for a non-integer
  count — yields `qty` entries of quantity 1;
* `metre`: the parsed list must be non-empty (`METERS_REQUIRED`), then the
  positive numeric survivors must be non-empty (`INVALID_METER_LENGTHS`);
  the total is their sum. -/
def prepareQuantities (unit : StockUnit) (quantity : Option ℚ)
    (meters : List (Option ℚ)) : Except EntryError (List ℚ × ℚ) :=
  match unit with
  | .adet =>
    let qty := quantity.getD 0
    if qty ≤ 0 then .error .invalidQuantity
    else if qty.den = 1 then .ok (List.replicate qty.num.toNat 1, qty)
    else .error .rangeError
  | .metre =>
    if meters = [] then .error .metersRequired
    else
      let qs := survivingLengths meters
      if qs = [] then .error .invalidMeterLengths
      else .ok (qs, qs.sum)

/-- `generateBarcodesForStockMovement`: one `generateUniqueBarcode` call per
quantity, each `createBarcodeRecord` immediately appending the new record to
the persisted barcode collection (so the next mint sees it).  On a generator
failure the error propagates, leaving the records created so far in the
store: the result is `.error store-at-failure`.  `k` is the index of the
current unit; `F`/`G`/`ids`/`dates` are the per-unit oracles. -/
def fanout (pid mid wid : String) (shelf : Option String) (u : StockUnit)
    (F G : ℕ → ℕ → ℕ) (ids dates : ℕ → String) (k : ℕ) :
    List ℚ → List BarcodeRec → Except (List BarcodeRec) (List BarcodeRec × List BarcodeRec)
  | [], store => .ok ([], store)
  | q :: qs, store =>
    match generateUniqueBarcode (store.map fun b => b.code) (F k) (G k) with
    | none => .error store
    | some c =>
      let b : BarcodeRec :=
        ⟨ids k, c, pid, mid, wid, shelf, q, u, false, dates k⟩
      match fanout pid mid wid shelf u F G ids dates (k + 1) qs (store ++ [b]) with
      | .ok (created, store') => .ok (b :: created, store')
      | .error s => .error s

/-- `updateStockMovementBarcodes` (storage.ts lines 349–356): set the barcode
list of the first movement with the given id; `none` when the id is
missing.  Returns the updated collection and the updated movement. -/
def setMovementBarcodes (id : String) (codes : List String) :
    List Movement → Option (List Movement × Movement)
  | [] => none
  | m :: ms =>
    if m.id = id then
      let m' := { m with barcodes := codes }
      some (m' :: ms, m')
    else
      match setMovementBarcodes id codes ms with
      | some (ms', m') => some (m :: ms', m')
      | none => none

/-- The `/api/stock/entry` pipeline from line 403 on (entity validation
already passed): prepare quantities, create the movement with an empty
barcode list, run the fan-out, then write the minted codes back onto the
movement (`updateStockMovementBarcodes`).  A failure is returned together
with the store the request leaves behind; in particular a fan-out failure
leaves the freshly created movement and the already-minted barcodes in the
store (the route's catch block performs no rollback). -/
def processStockEntry (store : Store) (productId warehouseId : String)
    (shelfId : Option String) (unit : StockUnit) (quantity : Option ℚ)
    (meters : List (Option ℚ)) (mvId : String) (F G : ℕ → ℕ → ℕ)
    (ids dates : ℕ → String) :
    Except (EntryError × Store) (Store × Movement × List BarcodeRec) :=
  match prepareQuantities unit quantity meters with
  | .error e => .error (e, store)
  | .ok (qs, total) =>
    let mv : Movement :=
      ⟨mvId, productId, warehouseId, shelfId, "Giriş", total, unit, []⟩
    let movements₁ := store.movements ++ [mv]
    match fanout productId mvId warehouseId shelfId unit F G ids dates 0 qs
        store.barcodes with
    | .error partialBarcodes =>
      .error (.barcodeGeneration, ⟨movements₁, partialBarcodes⟩)
    | .ok (created, barcodes') =>
      match setMovementBarcodes mvId (created.map fun b => b.code) movements₁ with
      | none => .error (.barcodeUpdateFailed, ⟨movements₁, barcodes'⟩)
      | some (movements', mv') => .ok (⟨movements', barcodes'⟩, mv', created)

/-! ## Customer codes (src/server/storage.ts, lines 297–324) -/

/-- The regex test `/^\d{6}$/`: exactly six decimal digits. -/
def isSixDigitCode (s : String) : Bool :=
  s.length == 6 && s.data.all fun c => ('0' ≤ c) && (c ≤ '9')

/-- `parseInt(code, 10)` on an all-digit string. -/
def parseCode (s : String) : ℕ :=
  s.data.foldl (fun a c => a * 10 + (c.toNat - 48)) 0

/-- The `reduce((max, current) => Math.max(max, current), 99999)` over the
parsed clean six-digit customer codes. -/
def maxCustomerCode (codes : List String) : ℕ :=
  ((codes.filter fun c => isSixDigitCode c).map parseCode).foldl max 99999

/-- `String.prototype.padStart(6, '0')`. -/
def padStart6 (s : String) : String :=
  String.mk (List.replicate (6 - s.length) '0') ++ s

/-- `getNextCustomerCode`: `Math.max(maxCode + 1, 100000)` zero-padded to six
characters. -/
def getNextCustomerCode (codes : List String) : String :=
  padStart6 (toString (max (maxCustomerCode codes + 1) 100000))

/-- The `do … while (await this.getCustomerByCode(code))` loop of
`generateCustomerCode` with its 1000-attempt budget; the customer collection
does not change during the call, so every iteration recomputes the same
candidate. -/
def genCustomerLoop (codes : List String) : ℕ → Option String
  | 0 => none
  | fuel + 1 =>
    let c := getNextCustomerCode codes
    if c ∈ codes then genCustomerLoop codes fuel else some c

/-- `generateCustomerCode` over the collection of existing customer code
strings. -/
def generateCustomerCode (codes : List String) : Option String :=
  genCustomerLoop codes 1000

/-! ## Label templates: `setDefaultLabelTemplate`
(src/server/storage.ts, lines 527–540) -/

/-- The slice of a label template record that `setDefaultLabelTemplate`
touches (plus the identifying fields). -/
structure LTemplate where
  id : String
  name : String
  isDefault : Bool
  updatedAt : String
  deriving DecidableEq, Repr

/-- `setDefaultLabelTemplate(id)`: `undefined` when no template has the id;
otherwise every template's `isDefault` is cleared, then the found (first
matching) template gets `isDefault = true` and a fresh `updatedAt`. -/
def setDefaultLabelTemplate (id now : String) : List LTemplate → Option (List LTemplate)
  | [] => none
  | t :: ts =>
    if t.id = id then
      some ({ t with isDefault := true, updatedAt := now }
              :: ts.map fun s => { s with isDefault := false })
    else
      match setDefaultLabelTemplate id now ts with
      | some ts' => some ({ t with isDefault := false } :: ts')
      | none => none

/-! ## Template validation (`validateTemplate`, editor script lines 2415–2472) -/

/-- The element fields `validateTemplate` inspects.  A missing `type` /
`field` (falsy in the source) is the empty string. -/
structure LabelElement where
  type : String
  field : String
  x : ℚ
  y : ℚ
  width : ℚ
  height : ℚ
  deriving DecidableEq, Repr

/-- The template fields `validateTemplate` inspects. -/
structure LabelTemplate where
  name : String
  width : ℚ
  height : ℚ
  elements : List LabelElement
  deriving DecidableEq, Repr

/-- One constructor per distinct error message pushed by `validateTemplate`;
the `ℕ` argument is the 1-based element index interpolated into the
message. -/
inductive TemplateError
  | nameRequired
  | nameTooLong
  | widthRange
  | heightRange
  | elementsRequired
  | typeRequired (i : ℕ)
  | fieldRequired (i : ℕ)
  | negativePosition (i : ℕ)
  | nonPositiveSize (i : ℕ)
  | beyondWidth (i : ℕ)
  | beyondHeight (i : ℕ)
  deriving DecidableEq, Repr

/-- The per-element checks of the `forEach` body, `i` being the 1-based
index used in the messages. -/
def elementErrors (w h : ℚ) (i : ℕ) (e : LabelElement) : List TemplateError :=
  (if e.type = "" then [.typeRequired i] else []) ++
  (if e.field = "" then [.fieldRequired i] else []) ++
  (if e.x < 0 ∨ e.y < 0 then [.negativePosition i] else []) ++
  (if e.width ≤ 0 ∨ e.height ≤ 0 then [.nonPositiveSize i] else []) ++
  (if e.x + e.width > w then [.beyondWidth i] else []) ++
  (if e.y + e.height > h then [.beyondHeight i] else [])

/-- `template.elements.forEach((element, index) => …)`, pushing messages with
`index + 1`; `i` counts the elements already processed. -/
def elementsErrors (w h : ℚ) (i : ℕ) : List LabelElement → List TemplateError
  | [] => []
  | e :: es => elementErrors w h (i + 1) e ++ elementsErrors w h (i + 1) es

/-- The result shape `{ isValid, errors }`. -/
structure ValidationResult where
  isValid : Bool
  errors : List TemplateError
  deriving DecidableEq, Repr

/-- `String.prototype.trim()`: strip leading and trailing whitespace. -/
def jsTrim (s : String) : String :=
  String.mk (((s.data.dropWhile Char.isWhitespace).reverse.dropWhile
    Char.isWhitespace).reverse)

/-- The template-level checks of `validateTemplate` (name, width, height,
element-list presence), in source order.  `!template.name` is the empty
string, `!template.width` the value 0 (the only falsy `ℚ`). -/
def headerErrors (t : LabelTemplate) : List TemplateError :=
  (if t.name = "" ∨ jsTrim t.name = "" then [.nameRequired] else []) ++
  (if t.name ≠ "" ∧ 100 < t.name.length then [.nameTooLong] else []) ++
  (if t.width = 0 ∨ t.width < 10 ∨ t.width > 500 then [.widthRange] else []) ++
  (if t.height = 0 ∨ t.height < 10 ∨ t.height > 500 then [.heightRange] else []) ++
  (if t.elements = [] then [.elementsRequired] else [])

/-- `validateTemplate`: accumulate every violation, `isValid` iff none; the
element loop runs even for an empty list (an empty array is truthy in the
source). -/
def validateTemplate (t : LabelTemplate) : ValidationResult :=
  let errors := headerErrors t ++ elementsErrors t.width t.height 0 t.elements
  ⟨errors.isEmpty, errors⟩

/-- The spec's failing example: width-60 template, element at `x = 55` with
width 10. -/
def demoBadTemplate : LabelTemplate :=
  ⟨"test", 60, 40, [⟨"text", "productName", 55, 0, 10, 10⟩]⟩

/-- The spec's passing example: element at `x = 50` with width 10, exactly
touching the right edge. -/
def demoGoodTemplate : LabelTemplate :=
  ⟨"test", 60, 40, [⟨"text", "productName", 50, 0, 10, 10⟩]⟩

/-! ## Layout geometry (editor script lines 756–1000) -/

/-- JavaScript `Math.round`: round half toward positive infinity. -/
def jround (q : ℚ) : ℤ := ⌊q + 1 / 2⌋

/-- `Math.round(v / gridSize) * gridSize`. -/
def snapMm (v grid : ℚ) : ℚ := (jround (v / grid) : ℚ) * grid

/-- The rectangle data (`x`, `y`, `width`, `height` in mm) of an element. -/
structure ElemRect where
  x : ℚ
  y : ℚ
  width : ℚ
  height : ℚ
  deriving DecidableEq, Repr

/-- The four corner resize handles. -/
inductive Handle
  | nw
  | ne
  | sw
  | se
  deriving DecidableEq, Repr

/-- `resizeElement`: the mouse position (pixels relative to the canvas) is
converted to mm by `/(4 * canvasScale)`, snapped to the grid, and the
handle-specific branch computes the new rect (each size, and for `sw`/`ne`/
`nw` also the new position, floored at 5); finally the width/height are cut
down so the rect does not cross the canvas's right/bottom edge. -/
def resizeElement (handle : Handle) (r : ElemRect)
    (mouseX mouseY scale grid canvasW canvasH : ℚ) : ElemRect :=
  let mmX := snapMm (mouseX / (4 * scale)) grid
  let mmY := snapMm (mouseY / (4 * scale)) grid
  let base : ElemRect :=
    match handle with
    | .se => ⟨r.x, r.y, max 5 (mmX - r.x), max 5 (mmY - r.y)⟩
    | .sw =>
      let newRightX := max 5 mmX
      ⟨newRightX, r.y, max 5 (r.x + r.width - newRightX), max 5 (mmY - r.y)⟩
    | .ne =>
      let newBottomY := max 5 mmY
      ⟨r.x, newBottomY, max 5 (mmX - r.x), max 5 (r.y + r.height - newBottomY)⟩
    | .nw =>
      let newRightX := max 5 mmX
      let newBottomY := max 5 mmY
      ⟨newRightX, newBottomY, max 5 (r.x + r.width - newRightX),
        max 5 (r.y + r.height - newBottomY)⟩
  let w := if base.x + base.width > canvasW then canvasW - base.x else base.width
  let h := if base.y + base.height > canvasH then canvasH - base.y else base.height
  ⟨base.x, base.y, w, h⟩

/-- The `moveElement` position computation: snap the pointer-derived mm
position to the grid, then clamp with
`Math.max(0, Math.min(mm, canvas - elementSize))`. -/
def moveElementPos (pixelX pixelY scale grid elemW elemH canvasW canvasH : ℚ) : ℚ × ℚ :=
  let mmX := snapMm (pixelX / (4 * scale)) grid
  let mmY := snapMm (pixelY / (4 * scale)) grid
  (max 0 (min mmX (canvasW - elemW)), max 0 (min mmY (canvasH - elemH)))

/-- Modelled from the spec: `clamp(v, lo, hi)` as used in the spec sentence
`x' = clamp(x, 0, canvasW - elementW)`. -/
def specClamp (v lo hi : ℚ) : ℚ := max lo (min v hi)

/-! ## Concrete data for witnesses -/

/-- Barcode minted for the first unit of the demo piece entry. -/
def demoBarcodeA : BarcodeRec :=
  ⟨"id", "100000", "p1", "mv1", "w1", none, 1, .adet, false, "t"⟩

/-- Barcode minted for the second unit of the demo piece entry. -/
def demoBarcodeB : BarcodeRec :=
  ⟨"id", "100001", "p1", "mv1", "w1", none, 1, .adet, false, "t"⟩

/-- The movement after the demo piece entry (quantity 2, both codes). -/
def demoMovement : Movement :=
  ⟨"mv1", "p1", "w1", none, "Giriş", ((2 : ℕ) : ℚ), .adet, ["100000", "100001"]⟩

/-! ## Helper lemmas -/

theorem digitChar_ge (d : ℕ) : '0' ≤ digitChar d := by
  have h : d % 10 < 10 := Nat.mod_lt _ (by norm_num)
  unfold digitChar
  interval_cases h : d % 10 <;> decide

theorem digitChar_le (d : ℕ) : digitChar d ≤ '9' := by
  have h : d % 10 < 10 := Nat.mod_lt _ (by norm_num)
  unfold digitChar
  interval_cases h : d % 10 <;> decide

theorem pad6_length (n : ℕ) : (pad6 n).length = 6 := rfl

theorem pad6_digits (n : ℕ) : ∀ c ∈ (pad6 n).data, '0' ≤ c ∧ c ≤ '9' := by
  intro c hc
  simp only [pad6, String.data, List.mem_cons, List.not_mem_nil, or_false] at hc
  rcases hc with rfl | rfl | rfl | rfl | rfl | rfl <;>
    exact ⟨digitChar_ge _, digitChar_le _⟩

theorem attemptLoop_mem (existing : List String) (cand : ℕ → String) :
    ∀ fuel i c, attemptLoop existing cand i fuel = some c →
      c ∉ existing ∧ ∃ j, c = cand j := by
  intro fuel
  induction fuel with
  | zero => intro i c h; cases h
  | succ n ih =>
    intro i c h
    unfold attemptLoop at h
    by_cases hmem : cand i ∈ existing
    · rw [if_pos hmem] at h
      exact ih (i + 1) c h
    · rw [if_neg hmem] at h
      cases h
      exact ⟨hmem, i, rfl⟩

theorem attemptLoop_stale (existing : List String) (cand : ℕ → String)
    (hall : ∀ i, cand i ∈ existing) :
    ∀ fuel i, attemptLoop existing cand i fuel = none := by
  intro fuel
  induction fuel with
  | zero => intro i; rfl
  | succ n ih =>
    intro i
    unfold attemptLoop
    rw [if_pos (hall i)]
    exact ih (i + 1)

theorem generateUniqueBarcode_mem (existing : List String) (f g : ℕ → ℕ) (c : String)
    (h : generateUniqueBarcode existing f g = some c) :
    c ∉ existing ∧ ∃ j, c = barcodeCandidate f g j := by
  unfold generateUniqueBarcode at h
  rcases h1 : attemptLoop existing (barcodeCandidate f g) 0 1000 with _ | c1
  · rw [h1] at h
    rcases h2 : attemptLoop existing (barcodeCandidate f g) 1001 1000 with _ | c2
    · rw [h2] at h
      exact attemptLoop_mem _ _ _ _ _ h
    · rw [h2] at h
      cases h
      exact attemptLoop_mem _ _ _ _ _ h2
  · rw [h1] at h
    cases h
    exact attemptLoop_mem _ _ _ _ _ h1

theorem generateUniqueBarcode_stale (existing : List String) (f g : ℕ → ℕ)
    (hall : ∀ i, barcodeCandidate f g i ∈ existing) :
    generateUniqueBarcode existing f g = none := by
  unfold generateUniqueBarcode
  rw [attemptLoop_stale existing _ hall, attemptLoop_stale existing _ hall,
      attemptLoop_stale existing _ hall]

theorem mintMany_fresh_nodup (n : ℕ) :
    ∀ F G existing cs, mintMany F G n existing = some cs →
      cs.Nodup ∧ ∀ c ∈ cs, c ∉ existing := by
  induction n with
  | zero =>
    intro F G existing cs h
    cases h
    exact ⟨List.nodup_nil, by intro c hc; cases hc⟩
  | succ m ih =>
    intro F G existing cs h
    unfold mintMany at h
    rcases h1 : generateUniqueBarcode existing (F 0) (G 0) with _ | c0
    · rw [h1] at h; cases h
    · rw [h1] at h
      dsimp only at h
      rcases h2 : mintMany (fun k => F (k + 1)) (fun k => G (k + 1)) m (c0 :: existing)
        with _ | cs0
      · rw [h2] at h; cases h
      · rw [h2] at h
        cases h
        have hfresh := (generateUniqueBarcode_mem existing (F 0) (G 0) c0 h1).1
        have hrest := ih _ _ _ _ h2
        refine ⟨List.nodup_cons.mpr ⟨?_, hrest.1⟩, ?_⟩
        · intro hc0
          exact (hrest.2 c0 hc0) (List.mem_cons_self _ _)
        · intro c hc
          rcases List.mem_cons.mp hc with rfl | hc'
          · exact hfresh
          · intro hex
            exact (hrest.2 c hc') (List.mem_cons_of_mem _ hex)

theorem fanout_ok (pid mid wid : String) (shelf : Option String) (u : StockUnit)
    (F G : ℕ → ℕ → ℕ) (ids dates : ℕ → String) :
    ∀ qs k store created store',
      fanout pid mid wid shelf u F G ids dates k qs store = .ok (created, store') →
      created.map BarcodeRec.quantity = qs ∧ created.length = qs.length ∧
      store' = store ++ created := by
  intro qs
  induction qs with
  | nil =>
    intro k store created store' h
    cases h
    simp
  | cons q qs ih =>
    intro k store created store' h
    unfold fanout at h
    rcases hg : generateUniqueBarcode (store.map fun b => b.code) (F k) (G k) with _ | c
    · rw [hg] at h; cases h
    · rw [hg] at h
      dsimp only at h
      rcases hf : fanout pid mid wid shelf u F G ids dates (k + 1) qs
          (store ++ [⟨ids k, c, pid, mid, wid, shelf, q, u, false, dates k⟩])
        with s | ⟨⟨cr, st⟩⟩
      · rw [hf] at h; cases h
      · rw [hf] at h
        cases h
        obtain ⟨h1, h2, h3⟩ := ih (k + 1) _ _ _ hf
        refine ⟨by simp [h1], by simp [h2], by rw [h3]; simp⟩

theorem setMovementBarcodes_fresh (id : String) (codes : List String) :
    ∀ ms (mv : Movement), (∀ m ∈ ms, m.id ≠ id) → mv.id = id →
      setMovementBarcodes id codes (ms ++ [mv]) =
        some (ms ++ [{ mv with barcodes := codes }], { mv with barcodes := codes }) := by
  intro ms
  induction ms with
  | nil =>
    intro mv _ hmv
    unfold setMovementBarcodes
    simp [hmv]
  | cons m ms ih =>
    intro mv hfresh hmv
    have hm : m.id ≠ id := hfresh m (List.mem_cons_self _ _)
    have hrest : ∀ m' ∈ ms, m'.id ≠ id := fun m' hm' =>
      hfresh m' (List.mem_cons_of_mem _ hm')
    unfold setMovementBarcodes
    simp only [List.cons_append, if_neg hm]
    rw [ih mv hrest hmv]

/-- Inversion of a successful `/api/stock/entry` run: the barcode quantities
are exactly the prepared per-unit quantities and the movement carries the
prepared total.  The movement id is assumed fresh (it is a fresh UUID in the
source). -/
theorem processStockEntry_ok_inv (store : Store) (pid wid : String)
    (shelf : Option String) (unit : StockUnit) (qty : Option ℚ)
    (meters : List (Option ℚ)) (mvId : String) (F G : ℕ → ℕ → ℕ)
    (ids dates : ℕ → String) (st' : Store) (mv : Movement) (bars : List BarcodeRec)
    (hfresh : ∀ m ∈ store.movements, m.id ≠ mvId)
    (h : processStockEntry store pid wid shelf unit qty meters mvId F G ids dates
        = .ok (st', mv, bars)) :
    ∃ qs total, prepareQuantities unit qty meters = .ok (qs, total) ∧
      bars.map BarcodeRec.quantity = qs ∧ bars.length = qs.length ∧
      mv.quantity = total ∧ st'.barcodes = store.barcodes ++ bars := by
  unfold processStockEntry at h
  rcases hpq : prepareQuantities unit qty meters with e | ⟨qs, total⟩
  · rw [hpq] at h; cases h
  · rw [hpq] at h
    dsimp only at h
    rcases hf : fanout pid mvId wid shelf unit F G ids dates 0 qs store.barcodes
      with pb | ⟨⟨created, barcodes'⟩⟩
    · rw [hf] at h; cases h
    · rw [hf] at h
      dsimp only at h
      rw [setMovementBarcodes_fresh mvId (created.map fun b => b.code)
        store.movements ⟨mvId, pid, wid, shelf, "Giriş", total, unit, []⟩ hfresh rfl] at h
      cases h
      obtain ⟨h1, h2, h3⟩ := fanout_ok pid mvId wid shelf unit F G ids dates
        qs 0 store.barcodes _ _ hf
      exact ⟨qs, total, rfl, h1, h2, rfl, h3⟩

theorem survivingLengths_all_pos :
    ∀ ls : List ℚ, (∀ l ∈ ls, 0 < l) → survivingLengths (ls.map some) = ls := by
  intro ls
  induction ls with
  | nil => intro _; rfl
  | cons x xs ih =>
    intro hpos
    have hx : 0 < x := hpos x (List.mem_cons_self _ _)
    have hxs : ∀ l ∈ xs, 0 < l := fun l hl => hpos l (List.mem_cons_of_mem _ hl)
    simp only [survivingLengths, List.map_cons, List.filterMap_cons] at *
    rw [if_pos hx]
    rw [ih hxs]

theorem prepareQuantities_adet (N : ℕ) (meters : List (Option ℚ)) (hN : 0 < N) :
    prepareQuantities .adet (some (N : ℚ)) meters =
      .ok (List.replicate N 1, (N : ℚ)) := by
  have h0 : ¬((N : ℚ) ≤ 0) := not_le.mpr (by exact_mod_cast hN)
  unfold prepareQuantities
  simp only [Option.getD_some]
  rw [if_neg h0, if_pos (by simp)]
  simp

theorem prepareQuantities_metre (ls : List ℚ) (qty : Option ℚ) (hne : ls ≠ [])
    (hpos : ∀ l ∈ ls, 0 < l) :
    prepareQuantities .metre qty (ls.map some) = .ok (ls, ls.sum) := by
  unfold prepareQuantities
  dsimp only
  rw [if_neg (by simpa using hne)]
  rw [survivingLengths_all_pos ls hpos]
  rw [if_neg hne]

theorem le_foldl_max (l : List ℕ) : ∀ a : ℕ, a ≤ l.foldl max a := by
  induction l with
  | nil => intro a; exact le_refl a
  | cons x xs ih =>
    intro a
    exact le_trans (le_max_left a x) (ih (max a x))

theorem maxCustomerCode_ge (codes : List String) : 99999 ≤ maxCustomerCode codes :=
  le_foldl_max _ 99999

theorem genCustomerLoop_some (codes : List String) :
    ∀ fuel c, genCustomerLoop codes fuel = some c → c = getNextCustomerCode codes := by
  intro fuel
  induction fuel with
  | zero => intro c h; cases h
  | succ n ih =>
    intro c h
    unfold genCustomerLoop at h
    by_cases hmem : getNextCustomerCode codes ∈ codes
    · rw [if_pos hmem] at h
      exact ih c h
    · rw [if_neg hmem] at h
      cases h
      rfl

theorem mem_ite_singleton {α : Type} (x a : α) (c : Prop) [Decidable c] :
    x ∈ (if c then [a] else []) ↔ c ∧ x = a := by
  split_ifs with h <;> simp [h]

theorem beyondWidth_mem_elementErrors (w h : ℚ) (m : ℕ) (e : LabelElement) (j : ℕ) :
    TemplateError.beyondWidth j ∈ elementErrors w h m e ↔
      j = m ∧ e.x + e.width > w := by
  simp only [elementErrors, List.mem_append, mem_ite_singleton]
  constructor
  · rintro (((((⟨_, h1⟩ | ⟨_, h1⟩) | ⟨_, h1⟩) | ⟨_, h1⟩) | ⟨hc, h1⟩) | ⟨_, h1⟩) <;>
      cases h1
    exact ⟨rfl, hc⟩
  · rintro ⟨rfl, hc⟩
    exact Or.inl (Or.inr ⟨hc, rfl⟩)

theorem beyondHeight_mem_elementErrors (w h : ℚ) (m : ℕ) (e : LabelElement) (j : ℕ) :
    TemplateError.beyondHeight j ∈ elementErrors w h m e ↔
      j = m ∧ e.y + e.height > h := by
  simp only [elementErrors, List.mem_append, mem_ite_singleton]
  constructor
  · rintro (((((⟨_, h1⟩ | ⟨_, h1⟩) | ⟨_, h1⟩) | ⟨_, h1⟩) | ⟨_, h1⟩) | ⟨hc, h1⟩) <;>
      cases h1
    exact ⟨rfl, hc⟩
  · rintro ⟨rfl, hc⟩
    exact Or.inr ⟨hc, rfl⟩

theorem beyondWidth_mem_elementsErrors (w h : ℚ) :
    ∀ (es : List LabelElement) (i j : ℕ),
      TemplateError.beyondWidth j ∈ elementsErrors w h i es ↔
        ∃ k, ∃ hk : k < es.length, j = i + k + 1 ∧
          (es.get ⟨k, hk⟩).x + (es.get ⟨k, hk⟩).width > w := by
  intro es
  induction es with
  | nil =>
    intro i j
    simp [elementsErrors]
  | cons e es ih =>
    intro i j
    unfold elementsErrors
    rw [List.mem_append]
    constructor
    · rintro (h1 | h2)
      · obtain ⟨rfl, hc⟩ := (beyondWidth_mem_elementErrors w h (i + 1) e j).mp h1
        exact ⟨0, Nat.succ_pos _, by omega, hc⟩
      · obtain ⟨k, hk, hj, hc⟩ := (ih (i + 1) j).mp h2
        exact ⟨k + 1, Nat.succ_lt_succ hk, by omega, hc⟩
    · rintro ⟨k, hk, hj, hc⟩
      cases k with
      | zero =>
        exact Or.inl ((beyondWidth_mem_elementErrors w h (i + 1) e j).mpr
          ⟨by omega, hc⟩)
      | succ k' =>
        exact Or.inr ((ih (i + 1) j).mpr
          ⟨k', Nat.lt_of_succ_lt_succ hk, by omega, hc⟩)

theorem beyondHeight_mem_elementsErrors (w h : ℚ) :
    ∀ (es : List LabelElement) (i j : ℕ),
      TemplateError.beyondHeight j ∈ elementsErrors w h i es ↔
        ∃ k, ∃ hk : k < es.length, j = i + k + 1 ∧
          (es.get ⟨k, hk⟩).y + (es.get ⟨k, hk⟩).height > h := by
  intro es
  induction es with
  | nil =>
    intro i j
    simp [elementsErrors]
  | cons e es ih =>
    intro i j
    unfold elementsErrors
    rw [List.mem_append]
    constructor
    · rintro (h1 | h2)
      · obtain ⟨rfl, hc⟩ := (beyondHeight_mem_elementErrors w h (i + 1) e j).mp h1
        exact ⟨0, Nat.succ_pos _, by omega, hc⟩
      · obtain ⟨k, hk, hj, hc⟩ := (ih (i + 1) j).mp h2
        exact ⟨k + 1, Nat.succ_lt_succ hk, by omega, hc⟩
    · rintro ⟨k, hk, hj, hc⟩
      cases k with
      | zero =>
        exact Or.inl ((beyondHeight_mem_elementErrors w h (i + 1) e j).mpr
          ⟨by omega, hc⟩)
      | succ k' =>
        exact Or.inr ((ih (i + 1) j).mpr
          ⟨k', Nat.lt_of_succ_lt_succ hk, by omega, hc⟩)

theorem beyond_not_mem_headerErrors (t : LabelTemplate) (j : ℕ) :
    TemplateError.beyondWidth j ∉ headerErrors t ∧
    TemplateError.beyondHeight j ∉ headerErrors t := by
  constructor <;>
  · intro hmem
    simp only [headerErrors, List.mem_append, mem_ite_singleton] at hmem
    rcases hmem with ((((⟨_, h1⟩ | ⟨_, h1⟩) | ⟨_, h1⟩) | ⟨_, h1⟩) | ⟨_, h1⟩) <;>
      cases h1

theorem prepareQuantities_metre_ok (qty : Option ℚ) (meters : List (Option ℚ))
    (qs : List ℚ) (total : ℚ)
    (h : prepareQuantities .metre qty meters = .ok (qs, total)) :
    qs = survivingLengths meters ∧ total = qs.sum := by
  unfold prepareQuantities at h
  dsimp only at h
  by_cases hm : meters = []
  · rw [if_pos hm] at h
    cases h
  · rw [if_neg hm] at h
    by_cases hs : survivingLengths meters = []
    · rw [if_pos hs] at h
      cases h
    · rw [if_neg hs] at h
      obtain ⟨h1, h2⟩ : survivingLengths meters = qs ∧ (survivingLengths meters).sum = total := by
        have := h
        simp only [Except.ok.injEq, Prod.mk.injEq] at this
        exact this
      subst h1
      exact ⟨rfl, h2.symm⟩

/-- Concrete fact for the C9 witness: a 10 mm canvas minus a 20 mm element
leaves a negative clamp bound. -/
theorem demoNegBound : (10 : ℚ) - 20 < 0 := by norm_num

/-- Pixel 80 at scale 1 is 20 mm, already on the 5 mm grid. -/
theorem demoSnapSw : snapMm (80 / (4 * 1)) 5 = 20 := by
  unfold snapMm jround
  norm_num

theorem demoSwLo : (5 : ℚ) ≤ snapMm (80 / (4 * 1)) 5 := by
  rw [demoSnapSw]
  norm_num

theorem demoSwOpp : snapMm (80 / (4 * 1)) 5 + 5 ≤ (10 : ℚ) + 20 := by
  rw [demoSnapSw]
  norm_num

theorem demoSwEdge : (10 : ℚ) + 20 ≤ 60 := by norm_num

/-! ## Claims -/

/-- C1 — Fan-out quantity conservation: a successful stock entry with unit
piece and positive integer quantity `N` creates exactly `N` barcode records
of quantity 1, and one with unit length over positive numeric lengths
`l1..lk` creates exactly `k` records carrying `l1..lk` in order; in both
cases the movement's recorded quantity is `N` (resp. `l1+…+lk`), equal to
the sum of the created barcodes' quantities. -/
theorem claim_C1_fanout_quantity_conservation
    (store : Store) (pid wid : String) (shelf : Option String) (unit : StockUnit)
    (qty : Option ℚ) (meters : List (Option ℚ)) (mvId : String) (F G : ℕ → ℕ → ℕ)
    (ids dates : ℕ → String) (st' : Store) (mv : Movement) (bars : List BarcodeRec)
    (hfresh : ∀ m ∈ store.movements, m.id ≠ mvId)
    (h : processStockEntry store pid wid shelf unit qty meters mvId F G ids dates
        = .ok (st', mv, bars)) :
    (∀ N : ℕ, unit = .adet → qty = some (N : ℚ) → 0 < N →
      bars.length = N ∧ (∀ b ∈ bars, b.quantity = 1) ∧ mv.quantity = (N : ℚ) ∧
      (bars.map BarcodeRec.quantity).sum = mv.quantity) ∧
    (∀ ls : List ℚ, unit = .metre → meters = ls.map some → (∀ l ∈ ls, 0 < l) →
      bars.map BarcodeRec.quantity = ls ∧ bars.length = ls.length ∧
      mv.quantity = ls.sum ∧ (bars.map BarcodeRec.quantity).sum = mv.quantity) := by
  obtain ⟨qs, total, hpq, hmap, hlen, hq, _⟩ :=
    processStockEntry_ok_inv store pid wid shelf unit qty meters mvId F G ids dates
      st' mv bars hfresh h
  constructor
  · intro N hu hqty hN
    subst hu
    subst hqty
    rw [prepareQuantities_adet N meters hN] at hpq
    obtain ⟨hqs, htot⟩ : List.replicate N (1 : ℚ) = qs ∧ (N : ℚ) = total := by
      have := hpq
      simp only [Except.ok.injEq, Prod.mk.injEq] at this
      exact this
    subst hqs
    subst htot
    refine ⟨by simpa using hlen, ?_, hq, ?_⟩
    · intro b hb
      have : b.quantity ∈ List.replicate N (1 : ℚ) := by
        rw [← hmap]
        exact List.mem_map_of_mem _ hb
      exact List.eq_of_mem_replicate this
    · rw [hmap, hq]
      simp [List.sum_replicate]
  · intro ls hu hm hpos
    subst hu
    subst hm
    rcases ls with _ | ⟨x, xs⟩
    · rw [show prepareQuantities .metre qty ([].map some) = .error .metersRequired
          from rfl] at hpq
      cases hpq
    · rw [prepareQuantities_metre (x :: xs) qty (by simp) hpos] at hpq
      obtain ⟨hqs, htot⟩ : x :: xs = qs ∧ (x :: xs).sum = total := by
        have := hpq
        simp only [Except.ok.injEq, Prod.mk.injEq] at this
        exact this
      subst hqs
      subst htot
      exact ⟨hmap, hlen, hq, by rw [hmap, hq]⟩

/-- Witness for C1: the demo piece entry with quantity 2 creates exactly the
two quantity-1 barcodes `demoBarcodeA`/`demoBarcodeB` and a movement of
quantity 2 equal to their sum. -/
theorem claim_C1_fanout_quantity_conservation_witness :
    [demoBarcodeA, demoBarcodeB].length = 2 ∧
    (∀ b ∈ [demoBarcodeA, demoBarcodeB], b.quantity = 1) ∧
    demoMovement.quantity = ((2 : ℕ) : ℚ) ∧
    ([demoBarcodeA, demoBarcodeB].map BarcodeRec.quantity).sum =
      demoMovement.quantity :=
  (claim_C1_fanout_quantity_conservation ⟨[], []⟩ "p1" "w1" none .adet
      (some ((2 : ℕ) : ℚ)) [] "mv1" (fun k _ => k) (fun _ _ => 0)
      (fun _ => "id") (fun _ => "t")
      ⟨[demoMovement], [demoBarcodeA, demoBarcodeB]⟩ demoMovement
      [demoBarcodeA, demoBarcodeB]
      (by intro m hm; cases hm) rfl).1 2 rfl rfl (by decide)

/-- C2 — Code uniqueness: every successful `generateUniqueBarcode` call
returns a 6-character numeric string that is not in the existing-codes set
read at the start of the call, and any sequence of `n` calls that feeds each
returned code back into the existing set yields pairwise distinct codes. -/
theorem claim_C2_code_uniqueness :
    (∀ existing f g c, generateUniqueBarcode existing f g = some c →
        c.length = 6 ∧ (∀ ch ∈ c.data, '0' ≤ ch ∧ ch ≤ '9') ∧ c ∉ existing)
    ∧ (∀ F G n existing cs, mintMany F G n existing = some cs →
        cs.Nodup ∧ ∀ c ∈ cs, c ∉ existing) := by
  constructor
  · intro existing f g c h
    obtain ⟨hfresh, j, hj⟩ := generateUniqueBarcode_mem existing f g c h
    subst hj
    exact ⟨pad6_length _, pad6_digits _, hfresh⟩
  · intro F G n existing cs h
    exact mintMany_fresh_nodup n F G existing cs h

/-- Witness for C2 at a concrete run: a single mint against `["111111"]`
returns `"100000"`, and two chained mints return distinct codes. -/
theorem claim_C2_code_uniqueness_witness :
    ("100000".length = 6 ∧ (∀ ch ∈ "100000".data, '0' ≤ ch ∧ ch ≤ '9') ∧
      "100000" ∉ ["111111"])
    ∧ ((["100000", "100001"] : List String).Nodup ∧
        ∀ c ∈ (["100000", "100001"] : List String), c ∉ ([] : List String)) :=
  ⟨claim_C2_code_uniqueness.1 ["111111"] (fun _ => 0) (fun _ => 0) "100000" rfl,
   claim_C2_code_uniqueness.2 (fun k _ => k) (fun _ _ => 0) 2 [] ["100000", "100001"] rfl⟩

/-- C3 — Monotonic customer code: a successful `generateCustomerCode` call
returns `max(existing clean 6-digit numeric codes, 99999) + 1` zero-padded
to six characters; codes that are not clean 6-digit numeric strings are
ignored by the maximum; `{100005, 100010}` yields `"100011"` and the empty
collection yields `"100000"`. -/
theorem claim_C3_customer_code_monotonic :
    (∀ codes c, generateCustomerCode codes = some c →
        c = padStart6 (toString (maxCustomerCode codes + 1))) ∧
    (∀ codes s, isSixDigitCode s = false →
        maxCustomerCode (s :: codes) = maxCustomerCode codes) ∧
    generateCustomerCode ["100005", "100010"] = some "100011" ∧
    generateCustomerCode [] = some "100000" := by
  refine ⟨?_, ?_, rfl, rfl⟩
  · intro codes c h
    have hc : c = getNextCustomerCode codes := genCustomerLoop_some codes 1000 c h
    have hmax : max (maxCustomerCode codes + 1) 100000 = maxCustomerCode codes + 1 :=
      max_eq_left (by have := maxCustomerCode_ge codes; omega)
    rw [hc]
    unfold getNextCustomerCode
    rw [hmax]
  · intro codes s hs
    unfold maxCustomerCode
    simp [List.filter_cons, hs]

/-- Witness for C3: applying the theorem to the concrete collection
`["100005", "100010"]`, whose successful result is `"100011"`. -/
theorem claim_C3_customer_code_monotonic_witness :
    ("100011" : String) =
      padStart6 (toString (maxCustomerCode ["100005", "100010"] + 1)) ∧
    maxCustomerCode ["abc123", "100005"] = maxCustomerCode ["100005"] :=
  ⟨claim_C3_customer_code_monotonic.1 ["100005", "100010"] "100011" rfl,
   claim_C3_customer_code_monotonic.2.1 ["100005"] "abc123" rfl⟩

/-- C7 — Single-default invariant: `setDefaultLabelTemplate` fails with a
not-found result when no template has the id; on success every template
whose id differs from the target has `isDefault = false`, some template with
the target id has `isDefault = true`, and exactly one template in the
collection is default. -/
theorem claim_C7_single_default :
    (∀ id now ts, (∀ t ∈ ts, t.id ≠ id) →
        setDefaultLabelTemplate id now ts = none) ∧
    (∀ id now ts ts', setDefaultLabelTemplate id now ts = some ts' →
        (∀ t' ∈ ts', t'.id ≠ id → t'.isDefault = false) ∧
        (∃ t' ∈ ts', t'.id = id ∧ t'.isDefault = true) ∧
        ts'.countP (fun t => t.isDefault) = 1) := by
  constructor
  · intro id now ts
    induction ts with
    | nil => intro _; rfl
    | cons t ts ih =>
      intro hall
      have ht : t.id ≠ id := hall t (List.mem_cons_self _ _)
      have hts : ∀ t' ∈ ts, t'.id ≠ id := fun t' h' => hall t' (List.mem_cons_of_mem _ h')
      unfold setDefaultLabelTemplate
      rw [if_neg ht, ih hts]
  · intro id now ts
    induction ts with
    | nil => intro ts' h; cases h
    | cons t ts ih =>
      intro ts' h
      unfold setDefaultLabelTemplate at h
      by_cases ht : t.id = id
      · rw [if_pos ht] at h
        cases h
        refine ⟨?_, ⟨_, List.mem_cons_self _ _, ht, rfl⟩, ?_⟩
        · intro t' ht' hne
          rcases List.mem_cons.mp ht' with rfl | hmem
          · exact absurd ht hne
          · obtain ⟨s, _, hs⟩ := List.mem_map.mp hmem
            rw [← hs]
        · simp only [List.countP_cons, List.countP_map]
          have : ∀ s : LTemplate,
              (fun t : LTemplate => t.isDefault) ({ s with isDefault := false }) = false :=
            fun _ => rfl
          simp [Function.comp, List.countP_eq_zero]
      · rw [if_neg ht] at h
        rcases hrec : setDefaultLabelTemplate id now ts with _ | ts''
        · rw [hrec] at h; cases h
        · rw [hrec] at h
          cases h
          obtain ⟨ha, ⟨tb, htb, htbid, htbdef⟩, hcount⟩ := ih _ hrec
          refine ⟨?_, ⟨tb, List.mem_cons_of_mem _ htb, htbid, htbdef⟩, ?_⟩
          · intro t' ht' hne
            rcases List.mem_cons.mp ht' with rfl | hmem
            · rfl
            · exact ha t' hmem hne
          · simp [List.countP_cons, hcount]

/-- Witness for C7 at the concrete collection where `A` is default and
`setDefault` targets `B`: afterwards only `B` is default; and targeting a
missing id fails. -/
theorem claim_C7_single_default_witness :
    ((∀ t' ∈ [(⟨"A", "a", false, "t0"⟩ : LTemplate), ⟨"B", "b", true, "t1"⟩],
        t'.id ≠ "B" → t'.isDefault = false) ∧
      (∃ t' ∈ [(⟨"A", "a", false, "t0"⟩ : LTemplate), ⟨"B", "b", true, "t1"⟩],
        t'.id = "B" ∧ t'.isDefault = true) ∧
      ([(⟨"A", "a", false, "t0"⟩ : LTemplate), ⟨"B", "b", true, "t1"⟩].countP
        (fun t => t.isDefault) = 1)) ∧
    setDefaultLabelTemplate "C" "t1"
      [(⟨"A", "a", true, "t0"⟩ : LTemplate), ⟨"B", "b", false, "t0"⟩] = none :=
  ⟨claim_C7_single_default.2 "B" "t1"
      [⟨"A", "a", true, "t0"⟩, ⟨"B", "b", false, "t0"⟩]
      [⟨"A", "a", false, "t0"⟩, ⟨"B", "b", true, "t1"⟩] rfl,
   claim_C7_single_default.1 "C" "t1"
      [⟨"A", "a", true, "t0"⟩, ⟨"B", "b", false, "t0"⟩] (by decide)⟩

/-- C10 — Frame property of `markBarcodeAsUsed`: when no record carries the
code the result is `false` and the collection is returned unchanged; when
the first match is at position `i`, the result is `true` and the new
collection is the old one with exactly that record replaced by a copy whose
only modified field is `isUsed := true`. -/
theorem claim_C10_markUsed_frame :
    (∀ code bs, (∀ b ∈ bs, b.code ≠ code) →
        markBarcodeAsUsed code bs = (false, bs)) ∧
    (∀ code bs i (hi : i < bs.length),
        (bs.get ⟨i, hi⟩).code = code →
        (∀ j (hj : j < bs.length), j < i → (bs.get ⟨j, hj⟩).code ≠ code) →
        markBarcodeAsUsed code bs =
          (true, bs.set i (setUsed (bs.get ⟨i, hi⟩)))) := by
  constructor
  · intro code bs
    induction bs with
    | nil => intro _; rfl
    | cons b bs ih =>
      intro hall
      have hb : b.code ≠ code := hall b (List.mem_cons_self _ _)
      have hbs : ∀ b' ∈ bs, b'.code ≠ code := fun b' h' =>
        hall b' (List.mem_cons_of_mem _ h')
      unfold markBarcodeAsUsed
      rw [if_neg hb, ih hbs]
  · intro code bs
    induction bs with
    | nil => intro i hi; cases hi
    | cons b bs ih =>
      intro i hi hmatch hfirst
      cases i with
      | zero =>
        have hb : b.code = code := hmatch
        unfold markBarcodeAsUsed
        rw [if_pos hb]
        rfl
      | succ i' =>
        have hb : b.code ≠ code := by
          have := hfirst 0 (Nat.succ_pos _) (Nat.succ_pos _)
          exact this
        have hi' : i' < bs.length := Nat.lt_of_succ_lt_succ hi
        have hmatch' : (bs.get ⟨i', hi'⟩).code = code := hmatch
        have hfirst' : ∀ j (hj : j < bs.length), j < i' →
            (bs.get ⟨j, hj⟩).code ≠ code := by
          intro j hj hji
          exact hfirst (j + 1) (Nat.succ_lt_succ hj) (Nat.succ_lt_succ hji)
        unfold markBarcodeAsUsed
        rw [if_neg hb, ih i' hi' hmatch' hfirst']
        rfl

/-- Witness for C10: marking `"222222"` in a two-record collection flips
only the second record's `isUsed`; marking a missing code returns `false`
with the collection unchanged. -/
theorem claim_C10_markUsed_frame_witness :
    markBarcodeAsUsed "222222"
        [⟨"i1", "111111", "p1", "m1", "w1", none, 1, .adet, false, "t"⟩,
         ⟨"i2", "222222", "p2", "m2", "w2", none, 3, .metre, false, "t"⟩] =
      (true,
        [⟨"i1", "111111", "p1", "m1", "w1", none, 1, .adet, false, "t"⟩,
         ⟨"i2", "222222", "p2", "m2", "w2", none, 3, .metre, true, "t"⟩]) ∧
    markBarcodeAsUsed "333333"
        [(⟨"i1", "111111", "p1", "m1", "w1", none, 1, .adet, false, "t"⟩ : BarcodeRec)] =
      (false, [⟨"i1", "111111", "p1", "m1", "w1", none, 1, .adet, false, "t"⟩]) :=
  ⟨claim_C10_markUsed_frame.2 "222222"
      [⟨"i1", "111111", "p1", "m1", "w1", none, 1, .adet, false, "t"⟩,
       ⟨"i2", "222222", "p2", "m2", "w2", none, 3, .metre, false, "t"⟩]
      1 (by decide) rfl
      (by
        intro j hj hj1
        have hj0 : j = 0 := by omega
        subst hj0
        show ("111111" : String) ≠ "222222"
        decide),
   claim_C10_markUsed_frame.1 "333333"
      [⟨"i1", "111111", "p1", "m1", "w1", none, 1, .adet, false, "t"⟩]
      (by decide)⟩

/-- C6 — Template bounds boundary: `validateTemplate` reports the
beyond-template-width error for element `i` exactly when `x + width >
template.width` (and beyond-height exactly when `y + height >
template.height`), `isValid` holds iff the error list is empty, and on the
60×40 demo templates the `x = 55` element fails while the `x = 50` element
(exactly touching the edge) passes. -/
theorem claim_C6_template_bounds :
    (∀ (t : LabelTemplate) (i : ℕ) (hi : i < t.elements.length),
      (TemplateError.beyondWidth (i + 1) ∈ (validateTemplate t).errors ↔
        (t.elements.get ⟨i, hi⟩).x + (t.elements.get ⟨i, hi⟩).width > t.width) ∧
      (TemplateError.beyondHeight (i + 1) ∈ (validateTemplate t).errors ↔
        (t.elements.get ⟨i, hi⟩).y + (t.elements.get ⟨i, hi⟩).height > t.height)) ∧
    (∀ t, (validateTemplate t).isValid = true ↔ (validateTemplate t).errors = []) ∧
    ((validateTemplate demoBadTemplate).isValid = false ∧
      TemplateError.beyondWidth 1 ∈ (validateTemplate demoBadTemplate).errors) ∧
    (validateTemplate demoGoodTemplate).isValid = true := by
  have hbadmem : TemplateError.beyondWidth 1 ∈ (validateTemplate demoBadTemplate).errors := by
    refine List.mem_append.mpr (Or.inr ?_)
    refine (beyondWidth_mem_elementsErrors 60 40 demoBadTemplate.elements 0 1).mpr
      ⟨0, by decide, rfl, ?_⟩
    show (55 : ℚ) + 10 > 60
    norm_num
  refine ⟨?_, ?_, ⟨?_, hbadmem⟩, ?_⟩
  · intro t i hi
    have herr : (validateTemplate t).errors =
        headerErrors t ++ elementsErrors t.width t.height 0 t.elements := rfl
    constructor
    · rw [herr, List.mem_append]
      constructor
      · rintro (hmem | hmem)
        · exact absurd hmem (beyond_not_mem_headerErrors t _).1
        · obtain ⟨k, hk, hj, hc⟩ :=
            (beyondWidth_mem_elementsErrors t.width t.height t.elements 0 (i + 1)).mp hmem
          have hki : k = i := by omega
          subst hki
          exact hc
      · intro hc
        exact Or.inr ((beyondWidth_mem_elementsErrors t.width t.height
          t.elements 0 (i + 1)).mpr ⟨i, hi, by omega, hc⟩)
    · rw [herr, List.mem_append]
      constructor
      · rintro (hmem | hmem)
        · exact absurd hmem (beyond_not_mem_headerErrors t _).2
        · obtain ⟨k, hk, hj, hc⟩ :=
            (beyondHeight_mem_elementsErrors t.width t.height t.elements 0 (i + 1)).mp hmem
          have hki : k = i := by omega
          subst hki
          exact hc
      · intro hc
        exact Or.inr ((beyondHeight_mem_elementsErrors t.width t.height
          t.elements 0 (i + 1)).mpr ⟨i, hi, by omega, hc⟩)
  · intro t
    simp [validateTemplate, List.isEmpty_iff]
  · have hne : (validateTemplate demoBadTemplate).errors ≠ [] :=
      List.ne_nil_of_mem hbadmem
    show (validateTemplate demoBadTemplate).errors.isEmpty = false
    rw [Bool.eq_false_iff]
    intro habs
    exact hne (List.isEmpty_iff.mp habs)
  · have h1 : ¬((50 : ℚ) + 10 > 60) := by norm_num
    have h2 : ¬((0 : ℚ) + 10 > 40) := by norm_num
    have he : elementErrors 60 40 1 ⟨"text", "productName", 50, 0, 10, 10⟩ = [] := by
      unfold elementErrors
      rw [if_neg h1, if_neg h2]
      decide
    have hee : elementsErrors 60 40 0 demoGoodTemplate.elements = [] := by
      show elementErrors 60 40 1 ⟨"text", "productName", 50, 0, 10, 10⟩ ++
        elementsErrors 60 40 1 [] = []
      rw [he]
      rfl
    show (headerErrors demoGoodTemplate ++
      elementsErrors 60 40 0 demoGoodTemplate.elements).isEmpty = true
    rw [hee]
    rw [show headerErrors demoGoodTemplate = [] from rfl]
    rfl

/-- Witness for C6: the bounds characterisation applied to the demo failing
template at element index 0 (`x = 55`, width 10, template width 60). -/
theorem claim_C6_template_bounds_witness :
    TemplateError.beyondWidth 1 ∈ (validateTemplate demoBadTemplate).errors ↔
      (55 : ℚ) + 10 > 60 :=
  (claim_C6_template_bounds.1 demoBadTemplate 0 (by decide)).1

/-- C9 — Position clamping: the drag-position computation returns
`clamp(x, 0, canvasW - elementW)` / `clamp(y, 0, canvasH - elementH)` of the
snapped pointer position, and when the element is wider (or taller) than the
canvas — negative upper bound — the result is clamped to 0. -/
theorem claim_C9_position_clamp :
    (∀ px py scale grid ew eh cw ch : ℚ,
      moveElementPos px py scale grid ew eh cw ch =
        (specClamp (snapMm (px / (4 * scale)) grid) 0 (cw - ew),
         specClamp (snapMm (py / (4 * scale)) grid) 0 (ch - eh))) ∧
    (∀ px py scale grid ew eh cw ch : ℚ, cw - ew < 0 →
      (moveElementPos px py scale grid ew eh cw ch).1 = 0) ∧
    (∀ px py scale grid ew eh cw ch : ℚ, ch - eh < 0 →
      (moveElementPos px py scale grid ew eh cw ch).2 = 0) := by
  refine ⟨fun _ _ _ _ _ _ _ _ => rfl, ?_, ?_⟩
  · intro px py scale grid ew eh cw ch hneg
    show max 0 (min (snapMm (px / (4 * scale)) grid) (cw - ew)) = 0
    exact max_eq_left (le_of_lt (lt_of_le_of_lt (min_le_right _ _) hneg))
  · intro px py scale grid ew eh cw ch hneg
    show max 0 (min (snapMm (py / (4 * scale)) grid) (ch - eh)) = 0
    exact max_eq_left (le_of_lt (lt_of_le_of_lt (min_le_right _ _) hneg))

/-- Witness for C9: on a 10×10 canvas with a 20×20 element both clamped
coordinates are 0. -/
theorem claim_C9_position_clamp_witness :
    (moveElementPos 0 0 1 5 20 20 10 10).1 = 0 ∧
    (moveElementPos 0 0 1 5 20 20 10 10).2 = 0 :=
  ⟨claim_C9_position_clamp.2.1 0 0 1 5 20 20 10 10 demoNegBound,
   claim_C9_position_clamp.2.2 0 0 1 5 20 20 10 10 demoNegBound⟩

/-- C8 counterexample — the claim that for handle `sw` the right edge
`x + width` always stays fixed is false: for rect `{10,10,20,20}` with the
pointer snapping to the right edge (30 mm), the 5 mm minimum-size floor
yields `x = 30, width = 5`, moving the right edge from 30 to 35. -/
theorem claim_C8_resize_counterexample :
    resizeElement .sw ⟨10, 10, 20, 20⟩ 120 120 1 5 60 40 = ⟨30, 10, 5, 20⟩ ∧
    (30 : ℚ) + 5 ≠ (10 : ℚ) + 20 := by
  constructor
  · simp only [resizeElement, snapMm, jround]
    norm_num [max_def, ElemRect.mk.injEq]
  · norm_num

/-- C8 amended — resize opposite-edge preservation with the minimum-size
floor made explicit: handle `se` always leaves `x`,`y` unchanged, and the
concrete `se` drag to mm `(40,40)` with grid 5 yields `width = height = 30`;
for `sw` (resp. `ne`, and both for `nw`) the fixed-edge preservation holds
whenever the snapped pointer coordinate is at least 5 mm, lies at least 5 mm
from the opposite edge, and that edge is inside the canvas — otherwise the
5 mm floor can move the "fixed" edge, as the counterexample shows. -/
theorem claim_C8_resize_amended :
    (∀ (r : ElemRect) (mouseX mouseY scale grid cw ch : ℚ),
      (resizeElement .se r mouseX mouseY scale grid cw ch).x = r.x ∧
      (resizeElement .se r mouseX mouseY scale grid cw ch).y = r.y) ∧
    resizeElement .se ⟨10, 10, 20, 20⟩ 160 160 1 5 60 40 = ⟨10, 10, 30, 30⟩ ∧
    (∀ (r : ElemRect) (mouseX mouseY scale grid cw ch : ℚ),
      5 ≤ snapMm (mouseX / (4 * scale)) grid →
      snapMm (mouseX / (4 * scale)) grid + 5 ≤ r.x + r.width →
      r.x + r.width ≤ cw →
      (resizeElement .sw r mouseX mouseY scale grid cw ch).x =
        snapMm (mouseX / (4 * scale)) grid ∧
      (resizeElement .sw r mouseX mouseY scale grid cw ch).x +
        (resizeElement .sw r mouseX mouseY scale grid cw ch).width =
        r.x + r.width) ∧
    (∀ (r : ElemRect) (mouseX mouseY scale grid cw ch : ℚ),
      5 ≤ snapMm (mouseY / (4 * scale)) grid →
      snapMm (mouseY / (4 * scale)) grid + 5 ≤ r.y + r.height →
      r.y + r.height ≤ ch →
      (resizeElement .ne r mouseX mouseY scale grid cw ch).y =
        snapMm (mouseY / (4 * scale)) grid ∧
      (resizeElement .ne r mouseX mouseY scale grid cw ch).y +
        (resizeElement .ne r mouseX mouseY scale grid cw ch).height =
        r.y + r.height) ∧
    (∀ (r : ElemRect) (mouseX mouseY scale grid cw ch : ℚ),
      5 ≤ snapMm (mouseX / (4 * scale)) grid →
      snapMm (mouseX / (4 * scale)) grid + 5 ≤ r.x + r.width →
      r.x + r.width ≤ cw →
      5 ≤ snapMm (mouseY / (4 * scale)) grid →
      snapMm (mouseY / (4 * scale)) grid + 5 ≤ r.y + r.height →
      r.y + r.height ≤ ch →
      (resizeElement .nw r mouseX mouseY scale grid cw ch).x +
        (resizeElement .nw r mouseX mouseY scale grid cw ch).width =
        r.x + r.width ∧
      (resizeElement .nw r mouseX mouseY scale grid cw ch).y +
        (resizeElement .nw r mouseX mouseY scale grid cw ch).height =
        r.y + r.height) := by
  refine ⟨fun r _ _ _ _ _ _ => ⟨rfl, rfl⟩, ?_, ?_, ?_, ?_⟩
  · simp only [resizeElement, snapMm, jround]
    norm_num [max_def, ElemRect.mk.injEq]
  · intro r mouseX mouseY scale grid cw ch h5 hopp hedge
    set S := snapMm (mouseX / (4 * scale)) grid with hSdef
    have hmax : max 5 S = S := max_eq_right h5
    have hw : max 5 (r.x + r.width - S) = r.x + r.width - S :=
      max_eq_right (by linarith)
    have hcond : ¬(S + (r.x + r.width - S) > cw) := by
      rw [show S + (r.x + r.width - S) = r.x + r.width from by ring]
      exact not_lt.mpr hedge
    refine ⟨hmax, ?_⟩
    show max 5 S + (if max 5 S + max 5 (r.x + r.width - max 5 S) > cw
        then cw - max 5 S else max 5 (r.x + r.width - max 5 S)) = r.x + r.width
    rw [hmax, hw, if_neg hcond]
    ring
  · intro r mouseX mouseY scale grid cw ch h5 hopp hedge
    set T := snapMm (mouseY / (4 * scale)) grid with hTdef
    have hmax : max 5 T = T := max_eq_right h5
    have hh : max 5 (r.y + r.height - T) = r.y + r.height - T :=
      max_eq_right (by linarith)
    have hcond : ¬(T + (r.y + r.height - T) > ch) := by
      rw [show T + (r.y + r.height - T) = r.y + r.height from by ring]
      exact not_lt.mpr hedge
    refine ⟨hmax, ?_⟩
    show max 5 T + (if max 5 T + max 5 (r.y + r.height - max 5 T) > ch
        then ch - max 5 T else max 5 (r.y + r.height - max 5 T)) = r.y + r.height
    rw [hmax, hh, if_neg hcond]
    ring
  · intro r mouseX mouseY scale grid cw ch hx5 hxopp hxedge hy5 hyopp hyedge
    set S := snapMm (mouseX / (4 * scale)) grid with hSdef
    set T := snapMm (mouseY / (4 * scale)) grid with hTdef
    have hmaxX : max 5 S = S := max_eq_right hx5
    have hmaxY : max 5 T = T := max_eq_right hy5
    have hw : max 5 (r.x + r.width - S) = r.x + r.width - S :=
      max_eq_right (by linarith)
    have hh : max 5 (r.y + r.height - T) = r.y + r.height - T :=
      max_eq_right (by linarith)
    have hcondX : ¬(S + (r.x + r.width - S) > cw) := by
      rw [show S + (r.x + r.width - S) = r.x + r.width from by ring]
      exact not_lt.mpr hxedge
    have hcondY : ¬(T + (r.y + r.height - T) > ch) := by
      rw [show T + (r.y + r.height - T) = r.y + r.height from by ring]
      exact not_lt.mpr hyedge
    constructor
    · show max 5 S + (if max 5 S + max 5 (r.x + r.width - max 5 S) > cw
          then cw - max 5 S else max 5 (r.x + r.width - max 5 S)) = r.x + r.width
      rw [hmaxX, hw, if_neg hcondX]
      ring
    · show max 5 T + (if max 5 T + max 5 (r.y + r.height - max 5 T) > ch
          then ch - max 5 T else max 5 (r.y + r.height - max 5 T)) = r.y + r.height
      rw [hmaxY, hh, if_neg hcondY]
      ring

/-- Witness for the amended C8 at a concrete `sw` drag: rect
`{10,10,20,20}`, pointer pixel 80 (20 mm) — the left edge lands on 20 while
the right edge 30 stays fixed. -/
theorem claim_C8_resize_amended_witness :
    (resizeElement .sw ⟨10, 10, 20, 20⟩ 80 120 1 5 60 40).x =
      snapMm (80 / (4 * 1)) 5 ∧
    (resizeElement .sw ⟨10, 10, 20, 20⟩ 80 120 1 5 60 40).x +
      (resizeElement .sw ⟨10, 10, 20, 20⟩ 80 120 1 5 60 40).width =
      (10 : ℚ) + 20 :=
  claim_C8_resize_amended.2.2.1 ⟨10, 10, 20, 20⟩ 80 120 1 5 60 40
    demoSwLo demoSwOpp demoSwEdge

/-- C5 counterexample — the claim that a length entry fails with the
invalid-lengths error when any supplied value is non-positive is false: with
lengths `[2, -1]` the entry succeeds (the `-1` is silently dropped by the
same filter that drops non-numeric entries). -/
theorem claim_C5_length_validation_counterexample :
    (processStockEntry ⟨[], []⟩ "p1" "w1" none .metre none [some 2, some (-1)]
      "mv1" (fun _ _ => 0) (fun _ _ => 0) (fun _ => "id") (fun _ => "t")).isOk
      = true := rfl

/-- C5 amended — length-entry validation as implemented: an empty list fails
with the meters-required error; a non-empty list whose positive numeric
survivors are empty fails with the invalid-lengths error; both non-numeric
and non-positive entries are dropped silently; a successful entry creates
one barcode per surviving length. -/
theorem claim_C5_length_validation_amended :
    (∀ store pid wid shelf qty mvId F G ids dates,
      processStockEntry store pid wid shelf .metre qty [] mvId F G ids dates
        = .error (.metersRequired, store)) ∧
    (∀ store pid wid shelf qty meters mvId F G ids dates,
      meters ≠ [] → survivingLengths meters = [] →
      processStockEntry store pid wid shelf .metre qty meters mvId F G ids dates
        = .error (.invalidMeterLengths, store)) ∧
    (∀ store pid wid shelf qty meters mvId F G ids dates st' mv bars,
      (∀ m ∈ store.movements, m.id ≠ mvId) →
      processStockEntry store pid wid shelf .metre qty meters mvId F G ids dates
        = .ok (st', mv, bars) →
      bars.map BarcodeRec.quantity = survivingLengths meters ∧
      bars.length = (survivingLengths meters).length ∧
      mv.quantity = (survivingLengths meters).sum) := by
  refine ⟨?_, ?_, ?_⟩
  · intro store pid wid shelf qty mvId F G ids dates
    rfl
  · intro store pid wid shelf qty meters mvId F G ids dates hne hsurv
    have hpq : prepareQuantities .metre qty meters = .error .invalidMeterLengths := by
      unfold prepareQuantities
      dsimp only
      rw [if_neg hne, if_pos hsurv]
    unfold processStockEntry
    rw [hpq]
  · intro store pid wid shelf qty meters mvId F G ids dates st' mv bars hfresh h
    obtain ⟨qs, total, hpq, hmap, hlen, hq, _⟩ :=
      processStockEntry_ok_inv store pid wid shelf .metre qty meters mvId F G
        ids dates st' mv bars hfresh h
    obtain ⟨hqs, htot⟩ := prepareQuantities_metre_ok qty meters qs total hpq
    subst hqs
    refine ⟨hmap, hlen, ?_⟩
    rw [hq, htot]

/-- Witness for the amended C5: the concrete list `[-1]` is non-empty but
has no positive survivor, so the entry fails with the invalid-lengths
error. -/
theorem claim_C5_length_validation_amended_witness :
    processStockEntry ⟨[], []⟩ "p1" "w1" none .metre none [some (-1)] "mv1"
      (fun _ _ => 0) (fun _ _ => 0) (fun _ => "id") (fun _ => "t")
      = .error (.invalidMeterLengths, ⟨[], []⟩) :=
  claim_C5_length_validation_amended.2.1 ⟨[], []⟩ "p1" "w1" none none
    [some (-1)] "mv1" (fun _ _ => 0) (fun _ _ => 0) (fun _ => "id")
    (fun _ => "t") (by decide) rfl

set_option maxRecDepth 1000000 in
/-- C4 — the failing input for fan-out atomicity: a piece entry of quantity
2 whose second mint exhausts all attempts (every candidate collides).  The
route leaves the freshly created movement (with an empty barcode list) and
the first minted barcode in the store instead of rolling them back: the
resulting store differs from the initial one, which held no movement and a
single barcode. -/
theorem claim_C4_fanout_atomicity_code_bug :
    processStockEntry
        ⟨[], [⟨"i0", "100000", "p0", "m0", "w0", none, 1, .adet, false, "t0"⟩]⟩
        "p1" "w1" none .adet (some ((2 : ℕ) : ℚ)) [] "mv1"
        (fun k _ => 1 - k) (fun _ _ => 0) (fun _ => "id") (fun _ => "t")
      = .error (.barcodeGeneration,
          ⟨[⟨"mv1", "p1", "w1", none, "Giriş", ((2 : ℕ) : ℚ), .adet, []⟩],
           [⟨"i0", "100000", "p0", "m0", "w0", none, 1, .adet, false, "t0"⟩,
            ⟨"id", "100001", "p1", "mv1", "w1", none, 1, .adet, false, "t"⟩]⟩) ∧
    ((⟨[], [⟨"i0", "100000", "p0", "m0", "w0", none, 1, .adet, false, "t0"⟩]⟩ :
        Store)).movements.length = 0 ∧
    ([(⟨"mv1", "p1", "w1", none, "Giriş", ((2 : ℕ) : ℚ), .adet, []⟩ :
        Movement)]).length = 1 :=
  ⟨rfl, rfl, rfl⟩

end Erp
